import Mathlib

/-!
Verification development for the prism prover node.

The definitions below are a shallow embedding of
`crates/node_types/prover/src/prover/mod.rs` (epoch pipeline) and
`crates/common/src/keys.rs` (key encoding and signatures).

External collaborators of the prover (the authenticated state tree, the
hashchain validation logic, the DA layer, the zkVM prover and the
cryptographic backends) are not part of the two source files; they are
modelled as abstract parameters bundled in environment structures, so every
theorem quantifies over all behaviours those collaborators may exhibit, and
witnesses instantiate them concretely.

Machine integers (`u64` heights and epochs) are modelled as `Nat`: the
source never relies on wrap-around for them. Fallible Rust functions
returning `Result<A>` become `Except String A`; functions that mutate
`&mut self` and return `Result` become state-passing functions of type
`SyncState T → Except (String × SyncState T) (SyncState T)`, where the
error also carries the state at the moment of failure (mirroring the fact
that a Rust error return leaves `self` in whatever state it reached).
-/

/-- Modelled from the spec (§3): the `Operation` enum of `prism_common`
(not under the two source files). Each variant carries its account `id`
and an abstract payload standing for the remaining fields. -/
inductive Operation where
  | RegisterService (ident : String) (payload : Nat)
  | CreateAccount (ident : String) (payload : Nat)
  | AddKey (ident : String) (payload : Nat)
  | RevokeKey (ident : String) (payload : Nat)
  | AddData (ident : String) (payload : Nat)
deriving DecidableEq, Repr

/-- `Operation::id()`: the account identifier of an operation. -/
def Operation.opId : Operation → String
  | .RegisterService i _ => i
  | .CreateAccount i _ => i
  | .AddKey i _ => i
  | .RevokeKey i _ => i
  | .AddData i _ => i

/-- Whether the operation is one of `AddKey | RevokeKey | AddData`, the
variants that require an existing hashchain in `validate_and_queue_update`. -/
def Operation.isKeyOp : Operation → Bool
  | .AddKey _ _ => true
  | .RevokeKey _ _ => true
  | .AddData _ _ => true
  | _ => false

/-- `FinalizedEpoch` from `prism_da`: height, the two commitments, the zk
proof blob (abstract, as `Nat`) and an optional signature (abstract). -/
structure FinalizedEpoch where
  height : Nat
  prevCommitment : Nat
  currentCommitment : Nat
  proof : Nat
  signature : Option Nat
deriving DecidableEq, Repr

/-- `Batch` from `prism_common::tree`: the public input bundle fed to the
zkVM program, built in `Prover::prove_epoch`. -/
structure Batch (P : Type) where
  prevRoot : Nat
  newRoot : Nat
  proofs : List P

/-- `HashchainResponse` from `prism_common::tree`: result of a tree read.
`HC` is the abstract hashchain type, `P` the abstract proof type. -/
inductive HashchainResponse (HC P : Type) where
  | Found (hc : HC) (membership : P)
  | NotFound (nonMembership : P)
deriving DecidableEq

/-- The persistence contract (§6.2): epoch counter, the per-epoch
commitment map (an association list, newest entry first, mirroring
key-value overwrite), and the last synced height. -/
structure DB where
  epoch : Nat
  commitments : List (Nat × Nat)
  lastSyncedHeight : Option Nat
deriving DecidableEq, Repr

/-- `db.get_commitment(&epoch)`: lookup that fails when no commitment was
persisted for the epoch. -/
def DB.getCommitment (db : DB) (e : Nat) : Except String Nat :=
  match db.commitments.lookup e with
  | some c => .ok c
  | none => .error "commitment not found"

/-- `db.set_commitment(&epoch, &commitment)`. -/
def DB.setCommitment (db : DB) (e c : Nat) : DB :=
  { db with commitments := (e, c) :: db.commitments }

/-- `db.set_epoch(&epoch)`. -/
def DB.setEpoch (db : DB) (e : Nat) : DB :=
  { db with epoch := e }

/-- `db.set_last_synced_height(&height)`. -/
def DB.setLastSyncedHeight (db : DB) (h : Nat) : DB :=
  { db with lastSyncedHeight := some h }

/-- The mutable state a `Prover` threads through the epoch pipeline: the
database, the state tree (abstract type `T`), the `buffered_operations`
queue local to `sync_loop`, and the shared `pending_operations` buffer. -/
structure SyncState (T : Type) where
  db : DB
  tree : T
  buffer : List Operation
  pending : List Operation
deriving DecidableEq, Repr

/-- `set_last_synced_height` lifted to the sync state. -/
def SyncState.setLastSynced {T : Type} (st : SyncState T) (h : Nat) : SyncState T :=
  { st with db := st.db.setLastSyncedHeight h }

/-- The prover's environment: configuration flags plus the contracts of
its external collaborators (state tree, DA layer, zkVM prover, signer,
operation validation and hashchain logic). `T` is the tree type, `P` the
per-operation proof type, `HC` the hashchain type. -/
structure Env (T P HC : Type) where
  commitment : T → Nat
  applyOp : T → Operation → Except String (T × P)
  getOps : Nat → Except String (List Operation)
  getFinalizedEpoch : Nat → Except String (Option FinalizedEpoch)
  proveFn : Batch P → Except String Nat
  signFn : FinalizedEpoch → Nat
  daSubmit : FinalizedEpoch → Except String Unit
  prover : Bool
  batcher : Bool
  validate : Operation → Except String Unit
  treeGet : T → String → Except String (HashchainResponse HC P)
  performOp : HC → Operation → Except String HC

variable {T P HC : Type}

/-- `Prover::execute_block`: apply each operation via
`process_operation`; a failing operation is logged and skipped, a
succeeding one contributes its proof; finally return `Ok(proofs)`. -/
def execute_block (env : Env T P HC) (t : T) : List Operation → Except String (T × List P)
  | [] => .ok (t, [])
  | op :: rest =>
    match env.applyOp t op with
    | .ok (t', pf) =>
      match execute_block env t' rest with
      | .ok (t'', pfs) => .ok (t'', pf :: pfs)
      | .error e => .error e
    | .error _ => execute_block env t rest

/-- The tree resulting from `execute_block`: each operation is applied
when it succeeds and skipped when it fails. -/
def execTree (env : Env T P HC) (t : T) : List Operation → T
  | [] => t
  | op :: rest =>
    match env.applyOp t op with
    | .ok (t', _) => execTree env t' rest
    | .error _ => execTree env t rest

/-- The proofs collected by `execute_block`: exactly the proofs of the
operations whose application succeeded, in operation order. -/
def execProofs (env : Env T P HC) (t : T) : List Operation → List P
  | [] => []
  | op :: rest =>
    match env.applyOp t op with
    | .ok (t', pf) => pf :: execProofs env t' rest
    | .error _ => execProofs env t rest

/-- `Prover::process_epoch`: handle a `FinalizedEpoch` read from DA at
the current height, checking it against the stored epoch and commitments
and applying the buffered operations. -/
def process_epoch (env : Env T P HC) (ep : FinalizedEpoch) (st : SyncState T) :
    Except (String × SyncState T) (SyncState T) :=
  let current_epoch := st.db.epoch
  if ep.height < current_epoch then
    .ok st
  else
    match st.db.getCommitment current_epoch with
    | .error e => .error (e, st)
    | .ok prev_commitment =>
      if ep.height ≠ current_epoch then
        .error ("epoch height mismatch", st)
      else if ep.prevCommitment ≠ prev_commitment then
        .error ("previous commitment mismatch", st)
      else
        let all_ops := st.buffer
        let st0 : SyncState T := { st with buffer := [] }
        match (if all_ops.isEmpty then .ok (st0.tree, ([] : List P))
               else execute_block env st0.tree all_ops) with
        | .error e => .error (e, st0)
        | .ok (t', _) =>
          let st1 : SyncState T := { st0 with tree := t' }
          let new_commitment := env.commitment t'
          if ep.currentCommitment ≠ new_commitment then
            .error ("new commitment mismatch", st1)
          else
            let next_epoch := current_epoch + 1
            .ok { st1 with db := (st1.db.setCommitment next_epoch new_commitment).setEpoch next_epoch }

/-- `FinalizedEpoch::insert_signature`: sign the record with the
signature field elided and attach the signature. -/
def insertSignature (env : Env T P HC) (ep : FinalizedEpoch) : FinalizedEpoch :=
  { ep with signature := some (env.signFn { ep with signature := none }) }

/-- `Prover::prove_epoch`: build the `Batch`, run and locally verify the
zkVM prover (both folded into `proveFn`), populate the `FinalizedEpoch`
with `signature: None` and then attach the signature. -/
def prove_epoch (env : Env T P HC) (epoch_height prev new : Nat) (proofs : List P) :
    Except String FinalizedEpoch :=
  match env.proveFn { prevRoot := prev, newRoot := new, proofs := proofs } with
  | .error e => .error e
  | .ok proof =>
    .ok (insertSignature env { height := epoch_height, prevCommitment := prev,
                               currentCommitment := new, proof := proof, signature := none })

/-- `Prover::finalize_new_epoch`: record the commitment before and after
applying the drained operations, prove, submit to DA, and only then
persist the new commitment and epoch counter. -/
def finalize_new_epoch (env : Env T P HC) (epoch_height : Nat) (operations : List Operation)
    (st : SyncState T) : Except (String × SyncState T) (SyncState T) :=
  let prev_commitment := env.commitment st.tree
  match execute_block env st.tree operations with
  | .error e => .error (e, st)
  | .ok (t', proofs) =>
    let st1 : SyncState T := { st with tree := t' }
    let new_commitment := env.commitment t'
    match prove_epoch env epoch_height prev_commitment new_commitment proofs with
    | .error e => .error (e, st1)
    | .ok finalized_epoch =>
      match env.daSubmit finalized_epoch with
      | .error e => .error (e, st1)
      | .ok _ =>
        let new_epoch_height := epoch_height + 1
        .ok { st1 with
              db := (st1.db.setCommitment new_epoch_height new_commitment).setEpoch new_epoch_height }

/-- `Prover::process_da_height`: read the epoch counter, fetch the
operations and the optional finalized epoch at the height, process the
epoch if present, finalize a new epoch when live with a non-empty buffer
on a prover-enabled node, and append the height's operations to the
buffer. -/
def process_da_height (env : Env T P HC) (height : Nat) (isRealTime : Bool)
    (st : SyncState T) : Except (String × SyncState T) (SyncState T) :=
  let current_epoch := st.db.epoch
  match env.getOps height with
  | .error e => .error (e, st)
  | .ok operations =>
    match env.getFinalizedEpoch height with
    | .error e => .error (e, st)
    | .ok epochResult =>
      match (match epochResult with
             | some ep => process_epoch env ep st
             | none => .ok st) with
      | .error e => .error e
      | .ok st1 =>
        match (if isRealTime && !st1.buffer.isEmpty && env.prover then
                 finalize_new_epoch env current_epoch st1.buffer { st1 with buffer := [] }
               else .ok st1) with
        | .error e => .error e
        | .ok st2 =>
          if operations.isEmpty then .ok st2
          else .ok { st2 with buffer := st2.buffer ++ operations }

/-- One iteration of the historical catch-up loop in `Prover::sync_loop`:
process the height, then persist `last_synced_height := current_height`. -/
def historical_step (env : Env T P HC) (height : Nat) (st : SyncState T) :
    Except (String × SyncState T) (SyncState T) :=
  match process_da_height env height false st with
  | .error e => .error e
  | .ok st1 => .ok (st1.setLastSynced height)

/-- The historical catch-up phase of `Prover::sync_loop`
(`while current_height <= end_height`), returning the state together
with the next expected height. -/
def historical_loop (env : Env T P HC) (end_height : Nat) (current : Nat) (st : SyncState T) :
    Except (String × SyncState T) (SyncState T × Nat) :=
  if current ≤ end_height then
    match historical_step env current st with
    | .error e => .error e
    | .ok st1 => historical_loop env end_height (current + 1) st1
  else .ok (st, current)
termination_by end_height + 1 - current
decreasing_by omega

/-- One iteration of the live loop in `Prover::sync_loop` after the
sequentiality check passed: process the height, increment
`current_height` and persist it (so `last_synced_height := height + 1`). -/
def live_step (env : Env T P HC) (height : Nat) (st : SyncState T) :
    Except (String × SyncState T) (SyncState T) :=
  match process_da_height env height true st with
  | .error e => .error e
  | .ok st1 => .ok (st1.setLastSynced (height + 1))

/-- The live phase of `Prover::sync_loop`, consuming a finite list of
incoming heights (an empty list models the subscription ending without a
further message). A received height different from the expected
`current_height` is fatal before any processing. -/
def live_loop (env : Env T P HC) : List Nat → Nat → SyncState T →
    Except (String × SyncState T) (SyncState T)
  | [], _, st => .ok st
  | h :: rest, current_height, st =>
    if h ≠ current_height then
      .error ("heights are not sequential", st)
    else
      match live_step env h st with
      | .error e => .error e
      | .ok st1 => live_loop env rest (current_height + 1) st1

/-- `Prover::sync_loop`: persist the initial commitment when the stored
epoch is 0, run the historical phase from `start_height` to
`end_height`, then the live phase on the subsequently received heights. -/
def sync_loop (env : Env T P HC) (start_height end_height : Nat) (heights : List Nat)
    (st : SyncState T) : Except (String × SyncState T) (SyncState T) :=
  let stInit : SyncState T :=
    if st.db.epoch = 0 then
      { st with db := st.db.setCommitment 0 (env.commitment st.tree) }
    else st
  match historical_loop env end_height start_height { stInit with buffer := [] } with
  | .error e => .error e
  | .ok (st1, current_height) => live_loop env heights current_height st1

/-- `Prover::get_hashchain`: a read-only tree access at the key hash of
the id (the hashing lives inside the abstract `treeGet`). -/
def get_hashchain (env : Env T P HC) (st : SyncState T) (ident : String) :
    Except String (HashchainResponse HC P) :=
  env.treeGet st.tree ident

/-- `Prover::validate_and_queue_update`: reject when the batcher is
disabled; run structural validation; for key operations, look up the
hashchain and dry-run `perform_operation` on the returned copy; on
success push the operation onto `pending_operations`. -/
def validate_and_queue_update (env : Env T P HC) (op : Operation) (st : SyncState T) :
    Except (String × SyncState T) (SyncState T) :=
  if !env.batcher then
    .error ("Batcher is disabled, cannot queue operations", st)
  else
    match env.validate op with
    | .error e => .error (e, st)
    | .ok _ =>
      let hashchainCheck : Except String Unit :=
        match op with
        | .RegisterService _ _ => .ok ()
        | .CreateAccount _ _ => .ok ()
        | .AddKey _ _ | .RevokeKey _ _ | .AddData _ _ =>
          match get_hashchain env st op.opId with
          | .error e => .error e
          | .ok (.NotFound _) => .error ("Hashchain not found for id: " ++ op.opId)
          | .ok (.Found hc _) =>
            match env.performOp hc op with
            | .error e => .error e
            | .ok _ => .ok ()
      match hashchainCheck with
      | .error e => .error (e, st)
      | .ok _ => .ok { st with pending := st.pending ++ [op] }

/-! ## Key encoding and signatures (`crates/common/src/keys.rs`)

Bytes are `Nat` values below 256; strings of base64 text are `List Char`.
The base64 functions model the `base64` crate's `general_purpose::STANDARD`
engine (standard alphabet, padding required on decode, canonical trailing
bits), which `keys.rs` uses for `Display` and `TryFrom<String>`. -/

/-- Standard-alphabet base64 digit for a 6-bit value. -/
def b64EncodeChar (n : Nat) : Char :=
  if n < 26 then Char.ofNat (65 + n)
  else if n < 52 then Char.ofNat (97 + (n - 26))
  else if n < 62 then Char.ofNat (48 + (n - 52))
  else if n = 62 then '+'
  else '/'

/-- Inverse of `b64EncodeChar`; `none` on characters outside the
standard alphabet (including the padding character). -/
def b64DecodeChar (c : Char) : Option Nat :=
  let n := c.toNat
  if 65 ≤ n ∧ n ≤ 90 then some (n - 65)
  else if 97 ≤ n ∧ n ≤ 122 then some (n - 97 + 26)
  else if 48 ≤ n ∧ n ≤ 57 then some (n - 48 + 52)
  else if c = '+' then some 62
  else if c = '/' then some 63
  else none

/-- `engine.encode`: standard base64 with padding over a byte list. -/
def b64Encode : List Nat → List Char
  | [] => []
  | [b1] =>
    [b64EncodeChar (b1 / 4), b64EncodeChar (b1 % 4 * 16), '=', '=']
  | [b1, b2] =>
    [b64EncodeChar (b1 / 4), b64EncodeChar (b1 % 4 * 16 + b2 / 16),
     b64EncodeChar (b2 % 16 * 4), '=']
  | b1 :: b2 :: b3 :: rest =>
    b64EncodeChar (b1 / 4) :: b64EncodeChar (b1 % 4 * 16 + b2 / 16) ::
    b64EncodeChar (b2 % 16 * 4 + b3 / 64) :: b64EncodeChar (b3 % 64) ::
    b64Encode rest

/-- `engine.decode`: standard base64 with required canonical padding;
rejects non-alphabet characters, lengths not a multiple of 4, misplaced
padding and non-zero trailing bits. -/
def b64Decode : List Char → Option (List Nat)
  | [] => some []
  | c1 :: c2 :: c3 :: c4 :: rest =>
    match b64DecodeChar c1, b64DecodeChar c2 with
    | some s1, some s2 =>
      if c3 = '=' then
        if c4 = '=' ∧ rest = [] then
          if s2 % 16 = 0 then some [s1 * 4 + s2 / 16] else none
        else none
      else
        match b64DecodeChar c3 with
        | some s3 =>
          if c4 = '=' then
            if rest = [] then
              if s3 % 4 = 0 then some [s1 * 4 + s2 / 16, s2 % 16 * 16 + s3 / 4]
              else none
            else none
          else
            match b64DecodeChar c4 with
            | some s4 =>
              match b64Decode rest with
              | some bs =>
                some ((s1 * 4 + s2 / 16) :: (s2 % 16 * 16 + s3 / 4) :: (s3 % 4 * 64 + s4) :: bs)
              | none => none
            | none => none
        | none => none
    | _, _ => none
  | _ => none

/-- The cryptographic backends of `keys.rs` (the `ed25519_consensus` and
`secp256k1` crates, plus `Digest::hash`), abstracted: `E`/`S` are the
Ed25519 and secp256k1 verifying-key types, `SE`/`SS` the corresponding
signature types. -/
structure KeyBackend (E S SE SS : Type) where
  edToBytes : E → List Nat
  secpSerialize : S → List Nat
  edTryFrom : List Nat → Except String E
  secpFromSlice : List Nat → Except String S
  edVerify : E → SE → List Nat → Except String Unit
  secpVerify : S → SS → List Nat → Except String Unit
  hashDigest : List Nat → List Nat

/-- The `VerifyingKey` enum of `keys.rs`. -/
inductive VerifyingKey (E S : Type) where
  | Secp256k1 (vk : S)
  | Ed25519 (vk : E)
deriving DecidableEq

/-- The `Signature` enum of `keys.rs`, with the `Placeholder` variant. -/
inductive Signature (SE SS : Type) where
  | Secp256k1 (sig : SS)
  | Ed25519 (sig : SE)
  | Placeholder
deriving DecidableEq

variable {E S SE SS : Type}

/-- The derived `Default` of `Signature` (`#[default]` on `Placeholder`). -/
def Signature.default : Signature SE SS := .Placeholder

/-- `VerifyingKey::as_bytes`: raw Ed25519 bytes or the compressed
secp256k1 serialization. -/
def VerifyingKey.asBytes (KB : KeyBackend E S SE SS) : VerifyingKey E S → List Nat
  | .Ed25519 vk => KB.edToBytes vk
  | .Secp256k1 vk => KB.secpSerialize vk

/-- `VerifyingKey`'s `Display` impl: base64 of the raw bytes. -/
def VerifyingKey.toText (KB : KeyBackend E S SE SS) (vk : VerifyingKey E S) : List Char :=
  b64Encode (vk.asBytes KB)

/-- `TryFrom<String> for VerifyingKey`: base64-decode, then dispatch on
the byte length (32 → Ed25519, 33 or 65 → secp256k1, otherwise error). -/
def VerifyingKey.tryFrom (KB : KeyBackend E S SE SS) (s : List Char) :
    Except String (VerifyingKey E S) :=
  match b64Decode s with
  | none => .error "Failed to decode base64 string"
  | some bytes =>
    if bytes.length = 32 then
      match KB.edTryFrom bytes with
      | .ok vk => .ok (.Ed25519 vk)
      | .error e => .error ("Invalid Ed25519 key: " ++ e)
    else if bytes.length = 33 ∨ bytes.length = 65 then
      match KB.secpFromSlice bytes with
      | .ok vk => .ok (.Secp256k1 vk)
      | .error e => .error ("Invalid Secp256k1 key: " ++ e)
    else .error "Invalid public key length"

/-- `VerifyingKey::verify_signature`: the signature variant must match
the key variant; Ed25519 verifies the raw message, secp256k1 verifies the
digest of the message. -/
def VerifyingKey.verifySignature (KB : KeyBackend E S SE SS) (vk : VerifyingKey E S)
    (message : List Nat) (signature : Signature SE SS) : Except String Unit :=
  match vk with
  | .Ed25519 k =>
    match signature with
    | .Ed25519 sig => KB.edVerify k sig message
    | _ => .error "Invalid signature type"
  | .Secp256k1 k =>
    match signature with
    | .Secp256k1 sig => KB.secpVerify k sig (KB.hashDigest message)
    | _ => .error "Invalid signature type"

/-- Whether a signature's variant matches a verifying key's variant. -/
def sigMatchesKey : VerifyingKey E S → Signature SE SS → Bool
  | .Ed25519 _, .Ed25519 _ => true
  | .Secp256k1 _, .Secp256k1 _ => true
  | _, _ => false

/-- The contract `keys.rs` relies on from the key crates: serialized
Ed25519 keys are 32 bytes, compressed secp256k1 keys are 33 bytes, both
are genuine byte lists, and parsing a key's own serialization succeeds
with a bytewise-equal key. -/
structure KeyBackendLawful (KB : KeyBackend E S SE SS) : Prop where
  edLen : ∀ k, (KB.edToBytes k).length = 32
  edBounds : ∀ k, ∀ b ∈ KB.edToBytes k, b < 256
  edRT : ∀ k, ∃ k', KB.edTryFrom (KB.edToBytes k) = .ok k' ∧ KB.edToBytes k' = KB.edToBytes k
  secpLen : ∀ k, (KB.secpSerialize k).length = 33
  secpBounds : ∀ k, ∀ b ∈ KB.secpSerialize k, b < 256
  secpRT : ∀ k, ∃ k', KB.secpFromSlice (KB.secpSerialize k) = .ok k' ∧
    KB.secpSerialize k' = KB.secpSerialize k

/-! ## Specification lemmas for `execute_block` -/

/-- `execute_block` always succeeds, returning the fold of the
successful operations and their proofs in order. -/
theorem execute_block_eq (env : Env T P HC) (ops : List Operation) :
    ∀ t : T, execute_block env t ops = .ok (execTree env t ops, execProofs env t ops) := by
  induction ops with
  | nil => intro t; rfl
  | cons op rest ih =>
    intro t
    simp only [execute_block, execTree, execProofs]
    cases h : env.applyOp t op with
    | ok tp =>
      obtain ⟨t', pf⟩ := tp
      simp [ih t']
    | error e => simpa using ih t

/-- C4: for every list of operations, `execute_block` returns `Ok`; the
returned proof list consists of exactly the proofs of the operations
whose application succeeded, in the order the operations appeared, and
failed operations contribute no proof. -/
theorem C4_execute_block_ok (env : Env T P HC) (t : T) (ops : List Operation) :
    execute_block env t ops = .ok (execTree env t ops, execProofs env t ops) ∧
    execProofs env t ops =
      (match ops with
       | [] => []
       | op :: rest =>
         match env.applyOp t op with
         | .ok (t', pf) => pf :: execProofs env t' rest
         | .error _ => execProofs env t rest) := by
  refine ⟨execute_block_eq env ops t, ?_⟩
  cases ops with
  | nil => rfl
  | cons op rest =>
    simp only [execProofs]

/-! ## `process_epoch` -/

/-- C1: for a finalized epoch `ep` against stored epoch `e`: if
`ep.height < e`, `process_epoch` returns `Ok` with the tree, the
buffered-operations queue and the database unchanged; if `ep.height = e`,
`ep.prev_commitment` equals the persisted `commitment(e)`, and after
draining the buffer and applying its operations the tree commitment
equals `ep.current_commitment`, then it persists `commitment(e+1)` equal
to the new tree commitment and sets the stored epoch to `e+1`. -/
theorem C1_process_epoch_ok (env : Env T P HC) (ep : FinalizedEpoch) (st : SyncState T) :
    (ep.height < st.db.epoch → process_epoch env ep st = .ok st) ∧
    (∀ c : Nat, ep.height = st.db.epoch →
      st.db.getCommitment st.db.epoch = .ok c →
      ep.prevCommitment = c →
      env.commitment (execTree env st.tree st.buffer) = ep.currentCommitment →
      process_epoch env ep st = .ok
        { st with
          buffer := [],
          tree := execTree env st.tree st.buffer,
          db := ((st.db.setCommitment (st.db.epoch + 1)
                    (env.commitment (execTree env st.tree st.buffer))).setEpoch
                 (st.db.epoch + 1)) }) := by
  constructor
  · intro h
    simp [process_epoch, h]
  · intro c h1 h2 h3 h4
    have hnl : ¬ ep.height < st.db.epoch := by omega
    simp only [process_epoch, if_neg hnl, h2, h1, h3]
    by_cases hb : st.buffer.isEmpty
    · have hbe : st.buffer = [] := List.isEmpty_iff.mp hb
      simp only [hbe] at h4 ⊢
      simp only [execTree] at h4 ⊢
      simp [← h4]
    · simp only [hb, if_neg, Bool.false_eq_true, ite_false,
        execute_block_eq env st.buffer st.tree]
      simp [← h4]

/-- C2: `process_epoch` returns an error when `ep.height` exceeds the
stored epoch, when `ep.prev_commitment` differs from the persisted
commitment of the current epoch, or when the tree commitment after
applying the drained buffer differs from `ep.current_commitment`; in the
first two failure cases the buffer, the tree and the stored
epoch/commitment map (the whole state) are unchanged. -/
theorem C2_process_epoch_err (env : Env T P HC) (ep : FinalizedEpoch) (st : SyncState T) :
    (st.db.epoch < ep.height → ∃ e, process_epoch env ep st = .error (e, st)) ∧
    (∀ c : Nat, ep.height = st.db.epoch →
      st.db.getCommitment st.db.epoch = .ok c →
      ep.prevCommitment ≠ c →
      ∃ e, process_epoch env ep st = .error (e, st)) ∧
    (∀ c : Nat, ep.height = st.db.epoch →
      st.db.getCommitment st.db.epoch = .ok c →
      ep.prevCommitment = c →
      env.commitment (execTree env st.tree st.buffer) ≠ ep.currentCommitment →
      ∃ e st', process_epoch env ep st = .error (e, st')) := by
  refine ⟨?_, ?_, ?_⟩
  · intro h
    have hnl : ¬ ep.height < st.db.epoch := by omega
    have hne : ep.height ≠ st.db.epoch := by omega
    cases hc : st.db.getCommitment st.db.epoch with
    | ok c =>
      exact ⟨"epoch height mismatch", by simp [process_epoch, hnl, hne, hc]⟩
    | error e =>
      exact ⟨e, by simp [process_epoch, hnl, hc]⟩
  · intro c h1 h2 h3
    have hnl : ¬ ep.height < st.db.epoch := by omega
    exact ⟨"previous commitment mismatch", by simp [process_epoch, hnl, h1, h2, h3]⟩
  · intro c h1 h2 h3 h4
    have hnl : ¬ ep.height < st.db.epoch := by omega
    refine ⟨"new commitment mismatch",
      { st with buffer := [], tree := execTree env st.tree st.buffer }, ?_⟩
    simp only [process_epoch, if_neg hnl, h2, h1, h3]
    by_cases hb : st.buffer.isEmpty
    · have hbe : st.buffer = [] := List.isEmpty_iff.mp hb
      simp only [hbe] at h4 ⊢
      simp only [execTree] at h4 ⊢
      simp [h4]
      intro hcontra
      exact absurd hcontra.symm h4
    · simp only [hb, Bool.false_eq_true, ite_false,
        execute_block_eq env st.buffer st.tree]
      simp
      intro hcontra
      exact absurd hcontra.symm h4

/-! ## `finalize_new_epoch` -/

/-- C3: `finalize_new_epoch(epoch_height, ops)` records the tree
commitment as `prev` before applying `ops` and as `new` after, builds
`Batch{prev, new, proofs of the successful operations}`, submits the
signed finalized epoch to DA, and only after that persists
`commitment(epoch_height+1) = new` and sets the stored epoch to
`epoch_height+1`; if the DA submission fails, the error propagates and
the persisted epoch counter and commitment map are unchanged, only the
in-memory tree being ahead. -/
theorem C3_finalize_new_epoch (env : Env T P HC) (eh : Nat) (ops : List Operation)
    (st : SyncState T) (pf : Nat) :
    env.proveFn { prevRoot := env.commitment st.tree,
                  newRoot := env.commitment (execTree env st.tree ops),
                  proofs := execProofs env st.tree ops } = .ok pf →
    ((env.daSubmit (insertSignature env
        { height := eh, prevCommitment := env.commitment st.tree,
          currentCommitment := env.commitment (execTree env st.tree ops),
          proof := pf, signature := none }) = .ok () →
      finalize_new_epoch env eh ops st = .ok
        { st with
          tree := execTree env st.tree ops,
          db := ((st.db.setCommitment (eh + 1)
                    (env.commitment (execTree env st.tree ops))).setEpoch (eh + 1)) }) ∧
     (∀ e, env.daSubmit (insertSignature env
        { height := eh, prevCommitment := env.commitment st.tree,
          currentCommitment := env.commitment (execTree env st.tree ops),
          proof := pf, signature := none }) = .error e →
      finalize_new_epoch env eh ops st =
        .error (e, { st with tree := execTree env st.tree ops }))) := by
  intro hprove
  constructor
  · intro hsub
    simp [finalize_new_epoch, execute_block_eq, prove_epoch, hprove, hsub]
  · intro e hsub
    simp [finalize_new_epoch, execute_block_eq, prove_epoch, hprove, hsub]

/-! ## `sync_loop` phases -/

/-- C5 (amended): after the sync engine finishes processing DA height
`h`, the value persisted as `last_synced_height` is `h` in the historical
catch-up phase, and `h + 1` (the next expected height) in the live
phase. -/
theorem C5_last_synced_after_height (env : Env T P HC) (h : Nat) (st st' : SyncState T) :
    (historical_step env h st = .ok st' → st'.db.lastSyncedHeight = some h) ∧
    (live_step env h st = .ok st' → st'.db.lastSyncedHeight = some (h + 1)) := by
  constructor
  · intro heq
    unfold historical_step at heq
    cases hp : process_da_height env h false st with
    | error e => rw [hp] at heq; cases heq
    | ok st1 =>
      rw [hp] at heq
      injection heq with h2
      rw [← h2]
      rfl
  · intro heq
    unfold live_step at heq
    cases hp : process_da_height env h true st with
    | error e => rw [hp] at heq; cases heq
    | ok st1 =>
      rw [hp] at heq
      injection heq with h2
      rw [← h2]
      rfl

/-- C6: in the live phase, a received height different from the expected
next height terminates the loop with an error before any per-height
processing (the state is untouched); and a run that consumes its heights
without error only ever processed the strictly sequential heights
starting at the expected one, each advancing the expectation by one. -/
theorem C6_live_heights_sequential (env : Env T P HC) :
    (∀ (h ch : Nat) (rest : List Nat) (st : SyncState T), h ≠ ch →
       live_loop env (h :: rest) ch st = .error ("heights are not sequential", st)) ∧
    (∀ (heights : List Nat) (ch : Nat) (st st' : SyncState T),
       live_loop env heights ch st = .ok st' →
       heights = List.range' ch heights.length) := by
  constructor
  · intro h ch rest st hne
    simp [live_loop, hne]
  · intro heights
    induction heights with
    | nil => intro ch st st' _; rfl
    | cons h rest ih =>
      intro ch st st' heq
      by_cases hne : h = ch
      · subst hne
        simp only [live_loop, ne_eq, not_true_eq_false, ite_false, if_neg] at heq
        cases hls : live_step env h st with
        | error e => rw [hls] at heq; cases heq
        | ok st1 =>
          rw [hls] at heq
          have hrec := ih (h + 1) st1 st' heq
          simp [List.range'_succ, ← hrec]
      · simp only [live_loop, ne_eq, hne, not_false_eq_true, ite_true, if_pos] at heq
        cases heq

/-! ## `validate_and_queue_update` -/

/-- C7: `validate_and_queue_update(op)` errors when the batcher is
disabled; for `AddKey`/`RevokeKey`/`AddData` it errors when no hashchain
exists for `op.id()` or when the simulated hashchain application rejects
the operation; every error case leaves the pending-operations buffer
(and the whole state) unchanged, and on success `op` is appended to the
pending buffer. -/
theorem C7_validate_and_queue (env : Env T P HC) (op : Operation) (st : SyncState T) :
    (env.batcher = false → ∃ e,
       validate_and_queue_update env op st = .error (e, st)) ∧
    (∀ npf : P, op.isKeyOp = true → env.batcher = true → env.validate op = .ok () →
       env.treeGet st.tree op.opId = .ok (.NotFound npf) →
       ∃ e, validate_and_queue_update env op st = .error (e, st)) ∧
    (∀ (hc : HC) (mpf : P) (e : String), op.isKeyOp = true → env.batcher = true →
       env.validate op = .ok () →
       env.treeGet st.tree op.opId = .ok (.Found hc mpf) →
       env.performOp hc op = .error e →
       validate_and_queue_update env op st = .error (e, st)) ∧
    (∀ (e : String) (st₂ : SyncState T),
       validate_and_queue_update env op st = .error (e, st₂) → st₂ = st) ∧
    (∀ st₂ : SyncState T, validate_and_queue_update env op st = .ok st₂ →
       st₂ = { st with pending := st.pending ++ [op] }) := by
  refine ⟨?_, ?_, ?_, ?_, ?_⟩
  · intro hb
    exact ⟨"Batcher is disabled, cannot queue operations",
      by simp [validate_and_queue_update, hb]⟩
  · intro npf hkey hb hv hget
    cases op with
    | RegisterService i p => simp [Operation.isKeyOp] at hkey
    | CreateAccount i p => simp [Operation.isKeyOp] at hkey
    | AddKey i p =>
      exact ⟨"Hashchain not found for id: " ++ Operation.opId (.AddKey i p),
        by simp [validate_and_queue_update, hb, hv, get_hashchain, hget]⟩
    | RevokeKey i p =>
      exact ⟨"Hashchain not found for id: " ++ Operation.opId (.RevokeKey i p),
        by simp [validate_and_queue_update, hb, hv, get_hashchain, hget]⟩
    | AddData i p =>
      exact ⟨"Hashchain not found for id: " ++ Operation.opId (.AddData i p),
        by simp [validate_and_queue_update, hb, hv, get_hashchain, hget]⟩
  · intro hc mpf e hkey hb hv hget hperf
    cases op with
    | RegisterService i p => simp [Operation.isKeyOp] at hkey
    | CreateAccount i p => simp [Operation.isKeyOp] at hkey
    | AddKey i p => simp [validate_and_queue_update, hb, hv, get_hashchain, hget, hperf]
    | RevokeKey i p => simp [validate_and_queue_update, hb, hv, get_hashchain, hget, hperf]
    | AddData i p => simp [validate_and_queue_update, hb, hv, get_hashchain, hget, hperf]
  · intro e st₂ heq
    unfold validate_and_queue_update at heq
    split at heq
    · injection heq with h1; exact (congrArg Prod.snd h1).symm
    · cases hv : env.validate op with
      | error e' =>
        rw [hv] at heq
        injection heq with h1
        exact (congrArg Prod.snd h1).symm
      | ok u =>
        rw [hv] at heq
        dsimp only at heq
        split at heq
        · injection heq with h1
          exact (congrArg Prod.snd h1).symm
        · cases heq
  · intro st₂ heq
    unfold validate_and_queue_update at heq
    split at heq
    · cases heq
    · cases hv : env.validate op with
      | error e' => rw [hv] at heq; cases heq
      | ok u =>
        rw [hv] at heq
        dsimp only at heq
        split at heq
        · cases heq
        · injection heq with h1; exact h1.symm

/-- C8: `validate_and_queue_update` never modifies the state tree or its
backing database — the hashchain dry-run operates on the copy returned
by the read-only `get_hashchain` — so the tree, the database and hence
the tree commitment are the same before and after the call, whether it
succeeds or fails. -/
theorem C8_validate_preserves_tree (env : Env T P HC) (op : Operation) (st : SyncState T) :
    (∀ st₂ : SyncState T, validate_and_queue_update env op st = .ok st₂ →
       st₂.tree = st.tree ∧ st₂.db = st.db ∧
       env.commitment st₂.tree = env.commitment st.tree) ∧
    (∀ (e : String) (st₂ : SyncState T),
       validate_and_queue_update env op st = .error (e, st₂) →
       st₂.tree = st.tree ∧ st₂.db = st.db ∧
       env.commitment st₂.tree = env.commitment st.tree) := by
  constructor
  · intro st₂ heq
    unfold validate_and_queue_update at heq
    split at heq
    · cases heq
    · cases hv : env.validate op with
      | error e' => rw [hv] at heq; cases heq
      | ok u =>
        rw [hv] at heq
        dsimp only at heq
        split at heq
        · cases heq
        · injection heq with h1
          rw [← h1]
          exact ⟨rfl, rfl, rfl⟩
  · intro e st₂ heq
    unfold validate_and_queue_update at heq
    split at heq
    · injection heq with h1
      have h2 := congrArg Prod.snd h1
      dsimp at h2
      rw [← h2]
      exact ⟨rfl, rfl, rfl⟩
    · cases hv : env.validate op with
      | error e' =>
        rw [hv] at heq
        injection heq with h1
        have h2 := congrArg Prod.snd h1
        dsimp at h2
        rw [← h2]
        exact ⟨rfl, rfl, rfl⟩
      | ok u =>
        rw [hv] at heq
        dsimp only at heq
        split at heq
        · injection heq with h1
          have h2 := congrArg Prod.snd h1
          dsimp at h2
          rw [← h2]
          exact ⟨rfl, rfl, rfl⟩
        · cases heq

/-! ## Base64 and key encoding -/

/-- Decoding an encoded base64 digit recovers the 6-bit value. -/
theorem b64_char_roundtrip : ∀ n, n < 64 → b64DecodeChar (b64EncodeChar n) = some n := by
  decide

/-- Base64 digits are never the padding character. -/
theorem b64_char_ne_pad : ∀ n, n < 64 → b64EncodeChar n ≠ '=' := by
  decide

/-- Standard base64 with padding round-trips on byte lists. -/
theorem b64_roundtrip : ∀ bs : List Nat, (∀ b ∈ bs, b < 256) →
    b64Decode (b64Encode bs) = some bs
  | [], _ => rfl
  | [b1], h => by
    have hb1 : b1 < 256 := h b1 (by simp)
    have e1 := b64_char_roundtrip (b1 / 4) (by omega)
    have e2 := b64_char_roundtrip (b1 % 4 * 16) (by omega)
    have h16 : b1 % 4 * 16 % 16 = 0 := by omega
    simp [b64Encode, b64Decode, e1, e2, h16]
    omega
  | [b1, b2], h => by
    have hb1 : b1 < 256 := h b1 (by simp)
    have hb2 : b2 < 256 := h b2 (by simp)
    have e1 := b64_char_roundtrip (b1 / 4) (by omega)
    have e2 := b64_char_roundtrip (b1 % 4 * 16 + b2 / 16) (by omega)
    have e3 := b64_char_roundtrip (b2 % 16 * 4) (by omega)
    have hne3 := b64_char_ne_pad (b2 % 16 * 4) (by omega)
    have h4 : b2 % 16 * 4 % 4 = 0 := by omega
    simp [b64Encode, b64Decode, e1, e2, e3, hne3, h4]
    omega
  | b1 :: b2 :: b3 :: rest, h => by
    have hb1 : b1 < 256 := h b1 (by simp)
    have hb2 : b2 < 256 := h b2 (by simp)
    have hb3 : b3 < 256 := h b3 (by simp)
    have ih := b64_roundtrip rest (fun b hb => h b (by simp [hb]))
    have e1 := b64_char_roundtrip (b1 / 4) (by omega)
    have e2 := b64_char_roundtrip (b1 % 4 * 16 + b2 / 16) (by omega)
    have e3 := b64_char_roundtrip (b2 % 16 * 4 + b3 / 64) (by omega)
    have e4 := b64_char_roundtrip (b3 % 64) (by omega)
    have hne3 := b64_char_ne_pad (b2 % 16 * 4 + b3 / 64) (by omega)
    have hne4 := b64_char_ne_pad (b3 % 64) (by omega)
    simp [b64Encode, b64Decode, e1, e2, e3, e4, hne3, hne4, ih]
    omega

/-- C9: decoding a `VerifyingKey`'s canonical textual form round-trips,
yielding a key with bytewise-equal encoding (32 bytes decode as Ed25519,
33 or 65 as secp256k1); and any base64 string whose decoded byte length
is not 32, 33 or 65 is rejected by `try_from`. -/
theorem C9_key_text_roundtrip {E S SE SS : Type} (KB : KeyBackend E S SE SS)
    (hL : KeyBackendLawful KB) :
    (∀ vk : VerifyingKey E S, ∃ vk',
       VerifyingKey.tryFrom KB (VerifyingKey.toText KB vk) = .ok vk' ∧
       vk'.asBytes KB = vk.asBytes KB) ∧
    (∀ (s : List Char) (bs : List Nat), b64Decode s = some bs →
       bs.length ≠ 32 → bs.length ≠ 33 → bs.length ≠ 65 →
       VerifyingKey.tryFrom KB s = .error "Invalid public key length") := by
  constructor
  · intro vk
    cases vk with
    | Ed25519 k =>
      obtain ⟨k', hk', hbytes⟩ := hL.edRT k
      refine ⟨.Ed25519 k', ?_, ?_⟩
      · simp [VerifyingKey.tryFrom, VerifyingKey.toText, VerifyingKey.asBytes,
          b64_roundtrip _ (hL.edBounds k), hL.edLen k, hk']
      · simpa [VerifyingKey.asBytes] using hbytes
    | Secp256k1 k =>
      obtain ⟨k', hk', hbytes⟩ := hL.secpRT k
      refine ⟨.Secp256k1 k', ?_, ?_⟩
      · simp [VerifyingKey.tryFrom, VerifyingKey.toText, VerifyingKey.asBytes,
          b64_roundtrip _ (hL.secpBounds k), hL.secpLen k, hk']
      · simpa [VerifyingKey.asBytes] using hbytes
  · intro s bs hdec h32 h33 h65
    simp [VerifyingKey.tryFrom, hdec, h32, h33, h65]

/-- C10: the `Signature` type has a third variant `Placeholder`, which is
its `Default`; `verify_signature` errors whenever the signature's variant
does not match the key's variant, so `Placeholder` never verifies under
any key. -/
theorem C10_placeholder_never_verifies {E S SE SS : Type} (KB : KeyBackend E S SE SS) :
    ((Signature.default : Signature SE SS) = Signature.Placeholder) ∧
    (∀ (vk : VerifyingKey E S) (m : List Nat) (sig : Signature SE SS),
       sigMatchesKey vk sig = false →
       ∃ e, VerifyingKey.verifySignature KB vk m sig = .error e) ∧
    (∀ (vk : VerifyingKey E S) (m : List Nat),
       ∃ e, VerifyingKey.verifySignature KB vk m Signature.Placeholder = .error e) := by
  refine ⟨rfl, ?_, ?_⟩
  · intro vk m sig hmm
    cases vk with
    | Ed25519 k =>
      cases sig with
      | Ed25519 sg => simp [sigMatchesKey] at hmm
      | Secp256k1 sg => exact ⟨"Invalid signature type", rfl⟩
      | Placeholder => exact ⟨"Invalid signature type", rfl⟩
    | Secp256k1 k =>
      cases sig with
      | Secp256k1 sg => simp [sigMatchesKey] at hmm
      | Ed25519 sg => exact ⟨"Invalid signature type", rfl⟩
      | Placeholder => exact ⟨"Invalid signature type", rfl⟩
  · intro vk m
    cases vk with
    | Ed25519 k => exact ⟨"Invalid signature type", rfl⟩
    | Secp256k1 k => exact ⟨"Invalid signature type", rfl⟩

/-! ## Concrete instantiations for witnesses -/

/-- A concrete environment: the tree is its own commitment (`T = Nat`),
every operation applies successfully, DA holds no operations and no
epochs, proving and submission succeed, the batcher is enabled and every
tree read reports a missing hashchain. -/
def envC : Env Nat Nat Unit where
  commitment := fun t => t
  applyOp := fun t _ => .ok (t + 1, t)
  getOps := fun _ => .ok []
  getFinalizedEpoch := fun _ => .ok none
  proveFn := fun _ => .ok 0
  signFn := fun _ => 0
  daSubmit := fun _ => .ok ()
  prover := false
  batcher := true
  validate := fun _ => .ok ()
  treeGet := fun _ _ => .ok (.NotFound 0)
  performOp := fun _ _ => .ok ()

/-- `envC` with a failing DA submission, a hashchain present on reads
and a rejecting hashchain dry-run. -/
def envCFail : Env Nat Nat Unit :=
  { envC with
    daSubmit := fun _ => .error "da down",
    treeGet := fun _ _ => .ok (.Found () 0),
    performOp := fun _ _ => .error "invalid operation" }

/-- `envC` with the batcher disabled. -/
def envCDisabled : Env Nat Nat Unit :=
  { envC with batcher := false }

/-- A concrete state: stored epoch 0 with `commitment(0) = 7`, tree
commitment 7, empty buffers. -/
def st0 : SyncState Nat :=
  { db := { epoch := 0, commitments := [(0, 7)], lastSyncedHeight := none },
    tree := 7, buffer := [], pending := [] }

/-- `st0` with stored epoch 1. -/
def st1 : SyncState Nat :=
  { st0 with db := { st0.db with epoch := 1 } }

/-- A finalized epoch matching `st0`. -/
def epC : FinalizedEpoch :=
  { height := 0, prevCommitment := 7, currentCommitment := 7, proof := 0, signature := none }

/-- A one-operation block. -/
def opsC : List Operation := [Operation.CreateAccount "acct" 0]

/-- Witness for C1 at concrete inputs: an epoch below the stored epoch is
ignored, and a matching epoch advances the stored epoch. -/
theorem C1_process_epoch_ok_witness :
    process_epoch envC epC st1 = .ok st1 ∧
    process_epoch envC epC st0 = .ok
      { st0 with
        buffer := [],
        tree := execTree envC st0.tree st0.buffer,
        db := ((st0.db.setCommitment (st0.db.epoch + 1)
                  (envC.commitment (execTree envC st0.tree st0.buffer))).setEpoch
               (st0.db.epoch + 1)) } :=
  ⟨(C1_process_epoch_ok envC epC st1).1 (by decide),
   (C1_process_epoch_ok envC epC st0).2 7 rfl rfl rfl rfl⟩

/-- Witness for C2 at concrete inputs: a too-high epoch height, a
previous-commitment mismatch and a new-commitment mismatch all error. -/
theorem C2_process_epoch_err_witness :
    (∃ e, process_epoch envC { epC with height := 5 } st0 = .error (e, st0)) ∧
    (∃ e, process_epoch envC { epC with prevCommitment := 8 } st0 = .error (e, st0)) ∧
    (∃ e st', process_epoch envC { epC with currentCommitment := 99 } st0 = .error (e, st')) :=
  ⟨(C2_process_epoch_err envC { epC with height := 5 } st0).1 (by decide),
   (C2_process_epoch_err envC { epC with prevCommitment := 8 } st0).2.1 7 rfl rfl (by decide),
   (C2_process_epoch_err envC { epC with currentCommitment := 99 } st0).2.2 7 rfl rfl rfl
     (by decide)⟩

/-- Witness for C3 at concrete inputs: a successful DA submission
persists the new epoch, a failing one propagates with the database
untouched. -/
theorem C3_finalize_new_epoch_witness :
    finalize_new_epoch envC 0 opsC st0 = .ok
      { st0 with
        tree := execTree envC st0.tree opsC,
        db := ((st0.db.setCommitment (0 + 1)
                  (envC.commitment (execTree envC st0.tree opsC))).setEpoch (0 + 1)) } ∧
    finalize_new_epoch envCFail 0 opsC st0 =
      .error ("da down", { st0 with tree := execTree envCFail st0.tree opsC }) :=
  ⟨(C3_finalize_new_epoch envC 0 opsC st0 0 rfl).1 rfl,
   (C3_finalize_new_epoch envCFail 0 opsC st0 0 rfl).2 "da down" rfl⟩

/-- Witness for the amended C5 at concrete inputs: the historical step
persists the processed height, the live step persists its successor. -/
theorem C5_last_synced_after_height_witness :
    (st0.setLastSynced 3).db.lastSyncedHeight = some 3 ∧
    (st0.setLastSynced 6).db.lastSyncedHeight = some (5 + 1) :=
  ⟨(C5_last_synced_after_height envC 3 st0 (st0.setLastSynced 3)).1 rfl,
   (C5_last_synced_after_height envC 5 st0 (st0.setLastSynced 6)).2 rfl⟩

/-- Counterexample to C5 as stated: in the live phase, after the engine
finishes processing DA height 5, the persisted `last_synced_height` is 6
(`current_height` is incremented before `set_last_synced_height`), not 5
as the claim asserts for both phases. -/
theorem C5_counterexample :
    live_loop envC [5] 5 st0 = .ok (st0.setLastSynced 6) ∧
    (st0.setLastSynced 6).db.lastSyncedHeight ≠ some 5 :=
  ⟨rfl, by decide⟩

/-- Witness for C6 at concrete inputs: a gap (7 after expecting 6) is a
fatal error with the state untouched; consuming [5, 6] from expectation
5 succeeds and the heights are exactly the sequential range. -/
theorem C6_live_heights_sequential_witness :
    live_loop envC [7] 6 st0 = .error ("heights are not sequential", st0) ∧
    [5, 6] = List.range' 5 2 :=
  ⟨(C6_live_heights_sequential envC).1 7 6 [] st0 (by decide),
   by
    have h := (C6_live_heights_sequential envC).2 [5, 6] 5 st0
      ((st0.setLastSynced 6).setLastSynced 7) rfl
    simpa using h⟩

/-- Witness for C7 at concrete inputs: disabled batcher, missing
hashchain and rejected dry-run all error leaving the state unchanged; a
`RegisterService` is appended to the pending buffer. -/
theorem C7_validate_and_queue_witness :
    (∃ e, validate_and_queue_update envCDisabled (Operation.RegisterService "svc" 0) st0 =
       .error (e, st0)) ∧
    (∃ e, validate_and_queue_update envC (Operation.AddKey "alice" 0) st0 =
       .error (e, st0)) ∧
    validate_and_queue_update envCFail (Operation.AddKey "alice" 0) st0 =
      .error ("invalid operation", st0) ∧
    validate_and_queue_update envC (Operation.RegisterService "svc" 0) st0 =
      .ok { st0 with pending := st0.pending ++ [Operation.RegisterService "svc" 0] } :=
  ⟨(C7_validate_and_queue envCDisabled (Operation.RegisterService "svc" 0) st0).1 rfl,
   (C7_validate_and_queue envC (Operation.AddKey "alice" 0) st0).2.1 0 rfl rfl rfl rfl,
   (C7_validate_and_queue envCFail (Operation.AddKey "alice" 0) st0).2.2.1
     () 0 "invalid operation" rfl rfl rfl rfl rfl,
   rfl⟩

/-- Witness for C8 at concrete inputs: both a successful call and a
failing call leave the tree, the database and the commitment unchanged. -/
theorem C8_validate_preserves_tree_witness :
    ({ st0 with pending := st0.pending ++ [Operation.RegisterService "svc" 0] }.tree = st0.tree ∧
     { st0 with pending := st0.pending ++ [Operation.RegisterService "svc" 0] }.db = st0.db ∧
     envC.commitment
       { st0 with pending := st0.pending ++ [Operation.RegisterService "svc" 0] }.tree =
       envC.commitment st0.tree) ∧
    (st0.tree = st0.tree ∧ st0.db = st0.db ∧
     envCDisabled.commitment st0.tree = envCDisabled.commitment st0.tree) :=
  ⟨(C8_validate_preserves_tree envC (Operation.RegisterService "svc" 0) st0).1
     { st0 with pending := st0.pending ++ [Operation.RegisterService "svc" 0] } rfl,
   (C8_validate_preserves_tree envCDisabled (Operation.RegisterService "svc" 0) st0).2
     "Batcher is disabled, cannot queue operations" st0 rfl⟩

/-- A concrete key backend over trivial key and signature types: a fixed
32-byte Ed25519 encoding and a fixed 33-byte secp256k1 encoding. -/
def KB0 : KeyBackend Unit Unit Unit Unit where
  edToBytes := fun _ => List.replicate 32 0
  secpSerialize := fun _ => List.replicate 33 1
  edTryFrom := fun _ => .ok ()
  secpFromSlice := fun _ => .ok ()
  edVerify := fun _ _ _ => .ok ()
  secpVerify := fun _ _ _ => .ok ()
  hashDigest := fun bs => bs

/-- `KB0` satisfies the key-crate contract. -/
theorem KB0_lawful : KeyBackendLawful KB0 := by
  refine ⟨?_, ?_, ?_, ?_, ?_, ?_⟩
  · intro k; simp [KB0]
  · intro k b hb
    have := List.eq_of_mem_replicate (show b ∈ List.replicate 32 0 from hb)
    omega
  · intro k; exact ⟨(), rfl, rfl⟩
  · intro k; simp [KB0]
  · intro k b hb
    have := List.eq_of_mem_replicate (show b ∈ List.replicate 33 1 from hb)
    omega
  · intro k; exact ⟨(), rfl, rfl⟩

/-- Witness for C9 at concrete inputs: a concrete Ed25519 key
round-trips through its textual form, and a base64 string decoding to a
single byte is rejected. -/
theorem C9_key_text_roundtrip_witness :
    (∃ vk', VerifyingKey.tryFrom KB0 (VerifyingKey.toText KB0 (VerifyingKey.Ed25519 ())) =
         .ok vk' ∧
       vk'.asBytes KB0 = (VerifyingKey.Ed25519 () : VerifyingKey Unit Unit).asBytes KB0) ∧
    VerifyingKey.tryFrom KB0 ['A', 'A', '=', '='] = .error "Invalid public key length" :=
  ⟨(C9_key_text_roundtrip KB0 KB0_lawful).1 (VerifyingKey.Ed25519 ()),
   (C9_key_text_roundtrip KB0 KB0_lawful).2 ['A', 'A', '=', '='] [0]
     (by decide) (by decide) (by decide) (by decide)⟩

/-- Witness for C10 at concrete inputs: the default signature is the
placeholder, and the placeholder fails to verify under a concrete key. -/
theorem C10_placeholder_never_verifies_witness :
    (Signature.default : Signature Unit Unit) = Signature.Placeholder ∧
    (∃ e, VerifyingKey.verifySignature KB0 (VerifyingKey.Ed25519 ()) [0, 1]
        Signature.Placeholder = .error e) :=
  ⟨(C10_placeholder_never_verifies KB0).1,
   (C10_placeholder_never_verifies KB0).2.1 (VerifyingKey.Ed25519 ()) [0, 1]
     Signature.Placeholder (by decide)⟩
